import Mathlib

/-!
Verification of the cm-vision-hybrid core against its natural-language spec.

The development shallowly embeds the Python modules `src/core/memory.py`,
`src/core/event_stream.py` and `src/core/analyzer.py`:
dictionaries become structures with `Option` fields where the source reads
keys through `dict.get` with defaults, Python floats become exact rationals
(`ℚ`), Python's stable `list.sort(key, reverse=True)` becomes a stable
descending insertion sort, and `difflib.SequenceMatcher.ratio()` is embedded
via its documented algorithm (greedy longest-matching-block decomposition,
ties broken by earliest start in the first sequence, then in the second;
the autojunk heuristic, which only activates on sequences of length ≥ 200,
is not modelled).
-/

namespace CMVision

/-- JSON values as produced/consumed by `json.dump` / `json.load`.
Python distinguishes ints from floats through JSON round-trips, so both
constructors are present. -/
inductive JVal where
  | jnull : JVal
  | jbool : Bool → JVal
  | jint : Int → JVal
  | jnum : ℚ → JVal
  | jstr : String → JVal
  | jarr : List JVal → JVal
  | jobj : List (String × JVal) → JVal

/-- Association-list lookup, the embedding of Python `dict` access
(`d.get(k)`); first binding wins, as in a dict with unique keys. -/
def assoc (l : List (String × JVal)) (k : String) : Option JVal :=
  match l with
  | [] => none
  | (k', v) :: rest => if k = k' then some v else assoc rest k

/-- An analysis dictionary as passed around `memory.py`: the five keys
`_calculate_similarity` and `save_experience` read through `.get` with
defaults.  A missing key is `none`; an empty dict is the all-`none` record. -/
structure Analysis where
  app : Option String
  activity : Option String
  error_detected : Option Bool
  suggestion : Option String
  mode : Option String
deriving DecidableEq

/-- A stored experience as built by `MVPMemory.save_experience`
(`memory.py` lines 55-65): all top-level keys are always written; the
`analysis` key may be absent in hand-written or legacy memory files, which
`_load_memory` and `find_similar` compensate for. -/
structure Experience where
  id : Nat
  timestamp : String
  screenshot : String
  analysis : Option Analysis
  app : String
  activity : String
  error_detected : Bool
  suggestion : String
  mode : String
deriving DecidableEq

/-- The `memory_data` dictionary of `MVPMemory` (`memory.py` lines 44-50). -/
structure MemoryData where
  version : String
  created : String
  last_updated : String
  experiences : List Experience
  patterns : List JVal

/-! ## difflib.SequenceMatcher model

`_calculate_similarity` calls
`difflib.SequenceMatcher(None, s1.lower(), s2.lower()).ratio()`.
`ratio()` is `2*M/T` where `T` is the sum of the two lengths and `M` is the
total size of the matching blocks found by recursively splitting around the
longest matching block. -/

/-- Length of the common run of `a`/`b` starting at positions `i`/`j`,
confined to the regions `[_, ahi)` / `[_, bhi)`.  `fuel` is structural
fuel; every call site passes `ahi - i`, which is always sufficient because
each step requires `i < ahi`. -/
def runLen (a b : List Char) (ahi bhi : Nat) : Nat → Nat → Nat → Nat
  | 0, _, _ => 0
  | fuel + 1, i, j =>
      if i < ahi ∧ j < bhi ∧ a.get? i ≠ none ∧ a.get? i = b.get? j then
        1 + runLen a b ahi bhi fuel (i + 1) (j + 1)
      else 0

/-- All candidate match triples `(i, j, k)` of the region
`[alo, ahi) × [blo, bhi)`, enumerated with `i` ascending then `j`
ascending — the tie-break order documented for
`SequenceMatcher.find_longest_match`. -/
def matchCandidates (a b : List Char) (alo ahi blo bhi : Nat) :
    List (Nat × Nat × Nat) :=
  (List.range' alo (ahi - alo)).flatMap fun i =>
    (List.range' blo (bhi - blo)).map fun j =>
      (i, j, runLen a b ahi bhi (ahi - i) i j)

/-- Keep the earlier candidate unless the later one is strictly longer:
folding this over `matchCandidates` yields the maximal match with smallest
`i`, then smallest `j` — exactly `find_longest_match`'s contract. -/
def pickLonger (best cand : Nat × Nat × Nat) : Nat × Nat × Nat :=
  if best.2.2 < cand.2.2 then cand else best

/-- `SequenceMatcher.find_longest_match(alo, ahi, blo, bhi)` (no junk,
no autojunk): the longest matching block, earliest in `a` then in `b`;
`(alo, blo, 0)` when the region has no match. -/
def longestMatch (a b : List Char) (alo ahi blo bhi : Nat) :
    Nat × Nat × Nat :=
  (matchCandidates a b alo ahi blo bhi).foldl pickLonger (alo, blo, 0)

/-- Total size `M` of the matching blocks of the region: the recursive
splitting performed by `SequenceMatcher.get_matching_blocks`.  `fuel` is
structural fuel; `ratio` passes the sum of the two lengths, which is
sufficient since every recursive call strictly shrinks the region. -/
def matchTotal (a b : List Char) : Nat → Nat → Nat → Nat → Nat → Nat
  | 0, _, _, _, _ => 0
  | fuel + 1, alo, ahi, blo, bhi =>
      let m := longestMatch a b alo ahi blo bhi
      if m.2.2 = 0 then 0
      else
        m.2.2 + matchTotal a b fuel alo m.1 blo m.2.1 +
          matchTotal a b fuel (m.1 + m.2.2) ahi (m.2.1 + m.2.2) bhi

/-- `SequenceMatcher(None, a, b).ratio()` = `2*M / (len(a)+len(b))`,
in exact rational arithmetic.  (CPython raises `ZeroDivisionError` when
both inputs are empty; `_calculate_similarity` only calls this with two
nonempty strings, and on that domain the model is exact.) -/
def seqRatio (a b : List Char) : ℚ :=
  2 * (matchTotal a b (a.length + b.length) 0 a.length 0 b.length : ℚ) /
    ((a.length : ℚ) + (b.length : ℚ))

/-- Python `str.lower()`, as a list of characters (ASCII-faithful). -/
def pyLower (s : String) : List Char :=
  s.toList.map Char.toLower

/-- `MVPMemory._calculate_similarity` (`memory.py` lines 111-138):
sequential accumulation of the app (0.4), activity (0.3) and
suggestion-ratio (0.3) signals, with `dict.get` defaults. -/
def calculate_similarity (analysis1 analysis2 : Analysis) : ℚ :=
  let app1 := analysis1.app.getD "unknown"
  let app2 := analysis2.app.getD "unknown"
  let s1 : ℚ := if app1 = app2 ∧ app1 ≠ "unknown" then 0 + 2/5 else 0
  let activity1 := analysis1.activity.getD "unknown"
  let activity2 := analysis2.activity.getD "unknown"
  let s2 : ℚ :=
    if activity1 = activity2 ∧ activity1 ≠ "unknown" then s1 + 3/10 else s1
  let suggestion1 := analysis1.suggestion.getD ""
  let suggestion2 := analysis2.suggestion.getD ""
  if suggestion1 ≠ "" ∧ suggestion2 ≠ "" then
    s2 + seqRatio (pyLower suggestion1) (pyLower suggestion2) * (3/10)
  else s2

/-! ## Recall engine (`MVPMemory.find_similar`) -/

/-- The analysis dictionary rebuilt from an experience's top-level keys
(`memory.py` lines 92-98, identical to the fix-up in `_load_memory`
lines 32-38). -/
def rebuildAnalysis (e : Experience) : Analysis :=
  { app := some e.app
    activity := some e.activity
    error_detected := some e.error_detected
    suggestion := some e.suggestion
    mode := some e.mode }

/-- `exp.get("analysis", {})` followed by the falsiness check
`if not exp_analysis` (`memory.py` lines 89-98): a missing key or an
empty dict both trigger the rebuild. -/
def effectiveAnalysis (e : Experience) : Analysis :=
  match e.analysis with
  | none => rebuildAnalysis e
  | some a => if a = ⟨none, none, none, none, none⟩ then rebuildAnalysis e else a

/-- The scored candidate list of `find_similar` (`memory.py` lines 85-103):
scan the last-50 window in store order, keep scores `> 0.3`. -/
def scoredCandidates (current : Analysis) (experiences : List Experience) :
    List (ℚ × Experience) :=
  ((experiences.drop (experiences.length - 50)).map
      (fun e => (calculate_similarity current (effectiveAnalysis e), e))).filter
    (fun p => decide ((3 : ℚ)/10 < p.1))

/-- Stable descending insertion: an element goes before the first strictly
smaller score and before nothing with an equal or larger score. -/
def insertDesc (x : ℚ × Experience) :
    List (ℚ × Experience) → List (ℚ × Experience)
  | [] => [x]
  | y :: ys => if y.1 ≤ x.1 then x :: y :: ys else y :: insertDesc x ys

/-- `similarities.sort(key=lambda x: x[0], reverse=True)`
(`memory.py` line 106).  Python's sort is stable also under
`reverse=True`; any stable sort computes the same list, and this
insertion sort is stable (proved below), so the embedding is exact. -/
def sortDesc (l : List (ℚ × Experience)) : List (ℚ × Experience) :=
  l.foldr insertDesc []

/-- Python slice `l[:k]`, including negative `k`
(`stop = max(0, len(l) + k)`). -/
def pyTake (k : Int) (l : List α) : List α :=
  if 0 ≤ k then l.take k.toNat else l.take ((l.length : Int) + k).toNat

/-- The ranked candidate list: scored window, stably sorted descending. -/
def rankedSimilarities (current : Analysis) (experiences : List Experience) :
    List (ℚ × Experience) :=
  sortDesc (scoredCandidates current experiences)

/-- `MVPMemory.find_similar` (`memory.py` lines 79-109). -/
def find_similar (mem : MemoryData) (current_analysis : Analysis)
    (limit : Int) : List Experience :=
  let experiences := mem.experiences
  if experiences = [] then []
  else (pyTake limit (rankedSimilarities current_analysis experiences)).map
    (fun p => p.2)

/-! ## Store append (`MVPMemory.save_experience`) -/

/-- The experience entry built at `memory.py` lines 55-65; `now` stands
for `datetime.now().isoformat()`. -/
def mkExperience (mem : MemoryData) (screenshot_path : String)
    (analysis : Analysis) (now : String) : Experience :=
  { id := mem.experiences.length + 1
    timestamp := now
    screenshot := screenshot_path
    analysis := some analysis
    app := analysis.app.getD "unknown"
    activity := analysis.activity.getD "unknown"
    error_detected := analysis.error_detected.getD false
    suggestion := analysis.suggestion.getD ""
    mode := analysis.mode.getD "unknown" }

/-- `MVPMemory.save_experience` (`memory.py` lines 52-77): append the new
entry, update `last_updated`, return the assigned id.  No eviction of any
kind is performed. -/
def save_experience (mem : MemoryData) (screenshot_path : String)
    (analysis : Analysis) (now : String) : MemoryData × Nat :=
  let experience := mkExperience mem screenshot_path analysis now
  ({ mem with
      experiences := mem.experiences ++ [experience]
      last_updated := now },
    experience.id)

/-- The fresh memory structure of `_load_memory` (`memory.py` lines 44-50). -/
def emptyMemory (now : String) : MemoryData :=
  { version := "0.1.1", created := now, last_updated := now
    experiences := [], patterns := [] }

/-- `n` successive `save_experience` calls on an initially empty store
(fixed screenshot path, analysis and timestamp — only the count matters). -/
def iterSave (analysis : Analysis) : Nat → MemoryData
  | 0 => emptyMemory "t0"
  | n + 1 => (save_experience (iterSave analysis n) "shot.png" analysis "t").1

/-! ## Event stream (`EventStream.add_event`, `event_stream.py` lines 41-59) -/

/-- One event dictionary as built by `add_event` (`event_stream.py`
lines 43-48). -/
structure EventRec where
  timestamp : String
  etype : String
  data : List (String × JVal)
  phase : String

/-- `EventStream.add_event` acting on the `self.events` list: append,
then keep only the last 1000 entries. -/
def add_event (events : List EventRec) (e : EventRec) : List EventRec :=
  let l := events ++ [e]
  if 1000 < l.length then l.drop (l.length - 1000) else l

/-! ## Persistence (`MVPMemory._save_memory` / `_load_memory`)

`json.dump` writes the `memory_data` dict verbatim; `json.load` reads it
back and `_load_memory` then rebuilds a missing `analysis` key of every
experience from the experience's top-level keys. -/

/-- The analysis dict serialized by `json.dump`: exactly the keys that are
present. -/
def encodeAnalysis (a : Analysis) : JVal :=
  .jobj
    ((match a.app with | some s => [("app", JVal.jstr s)] | none => []) ++
     (match a.activity with
      | some s => [("activity", JVal.jstr s)] | none => []) ++
     (match a.error_detected with
      | some b => [("error_detected", JVal.jbool b)] | none => []) ++
     (match a.suggestion with
      | some s => [("suggestion", JVal.jstr s)] | none => []) ++
     (match a.mode with | some s => [("mode", JVal.jstr s)] | none => []))

/-- Read an analysis dict back from JSON (key-based access, as the Python
code reads `exp["analysis"].get(...)`). -/
def decodeAnalysis (j : JVal) : Option Analysis :=
  match j with
  | .jobj fs =>
      some
        { app := match assoc fs "app" with
            | some (.jstr s) => some s | _ => none
          activity := match assoc fs "activity" with
            | some (.jstr s) => some s | _ => none
          error_detected := match assoc fs "error_detected" with
            | some (.jbool b) => some b | _ => none
          suggestion := match assoc fs "suggestion" with
            | some (.jstr s) => some s | _ => none
          mode := match assoc fs "mode" with
            | some (.jstr s) => some s | _ => none }
  | _ => none

/-- One experience dict as serialized by `json.dump`, keys in the
insertion order of `save_experience` (`memory.py` lines 55-65); the
`analysis` key is present exactly when the experience has one. -/
def encodeExperience (e : Experience) : JVal :=
  .jobj
    ([("id", JVal.jint e.id), ("timestamp", JVal.jstr e.timestamp),
      ("screenshot", JVal.jstr e.screenshot)] ++
     (match e.analysis with
      | some a => [("analysis", encodeAnalysis a)] | none => []) ++
     [("app", JVal.jstr e.app), ("activity", JVal.jstr e.activity),
      ("error_detected", JVal.jbool e.error_detected),
      ("suggestion", JVal.jstr e.suggestion),
      ("mode", JVal.jstr e.mode)])

/-- Read one experience back from JSON. -/
def decodeExperience (j : JVal) : Option Experience :=
  match j with
  | .jobj fs =>
      match assoc fs "id", assoc fs "timestamp", assoc fs "screenshot",
          assoc fs "app", assoc fs "activity", assoc fs "error_detected",
          assoc fs "suggestion", assoc fs "mode" with
      | some (.jint n), some (.jstr ts), some (.jstr sc), some (.jstr app),
          some (.jstr act), some (.jbool ed), some (.jstr sg),
          some (.jstr md) =>
          some
            { id := n.toNat, timestamp := ts, screenshot := sc
              analysis := (assoc fs "analysis").bind decodeAnalysis
              app := app, activity := act, error_detected := ed
              suggestion := sg, mode := md }
      | _, _, _, _, _, _, _, _ => none
  | _ => none

/-- Decode a JSON array of experiences (all must decode). -/
def decodeExperiences : List JVal → Option (List Experience)
  | [] => some []
  | j :: rest =>
      match decodeExperience j, decodeExperiences rest with
      | some e, some es => some (e :: es)
      | _, _ => none

/-- `MVPMemory._save_memory` (`memory.py` lines 140-146): the JSON
document `json.dump` writes for the whole `memory_data` dict. -/
def save_memory (m : MemoryData) : JVal :=
  .jobj
    [("version", JVal.jstr m.version), ("created", JVal.jstr m.created),
     ("last_updated", JVal.jstr m.last_updated),
     ("experiences", JVal.jarr (m.experiences.map encodeExperience)),
     ("patterns", JVal.jarr m.patterns)]

/-- Structural read-back of the persisted document. -/
def decodeMemory (j : JVal) : Option MemoryData :=
  match j with
  | .jobj fs =>
      match assoc fs "version", assoc fs "created",
          assoc fs "last_updated", assoc fs "experiences",
          assoc fs "patterns" with
      | some (.jstr v), some (.jstr c), some (.jstr lu), some (.jarr es),
          some (.jarr ps) =>
          (decodeExperiences es).map
            (fun exps =>
              { version := v, created := c, last_updated := lu
                experiences := exps, patterns := ps })
      | _, _, _, _, _ => none
  | _ => none

/-- The fix-up of `_load_memory` (`memory.py` lines 29-38): an experience
without an `analysis` key gets one rebuilt from its top-level keys. -/
def fixExperience (e : Experience) : Experience :=
  match e.analysis with
  | none => { e with analysis := some (rebuildAnalysis e) }
  | some _ => e

/-- `MVPMemory._load_memory` on a successfully parsed document
(`memory.py` lines 22-39): read the dict back and apply the fix-up to
every experience. -/
def load_memory (j : JVal) : Option MemoryData :=
  (decodeMemory j).map
    (fun m => { m with experiences := m.experiences.map fixExperience })

/-- The per-observation fields the spec's round-trip talks about: id and
all top-level field values. -/
def topFields (e : Experience) :
    Nat × String × String × String × String × Bool × String × String :=
  (e.id, e.timestamp, e.screenshot, e.app, e.activity, e.error_detected,
    e.suggestion, e.mode)

/-! ## Analyzer (`GeminiAnalyzer._parse_gemini_response`, success branch)

The branch of `_parse_gemini_response` that runs after `json.loads`
succeeds (`analyzer.py` lines 132-156): map the parsed dict to the
analysis dict, then clean up the app name. -/

/-- The result dict built at `analyzer.py` lines 135-143: raw values are
copied through `data.get` with defaults and no validation. -/
structure GAnalysis where
  app : JVal
  activity : JVal
  error_detected : JVal
  suggestion : JVal
  confidence : JVal
  mode : String
  analysis_time : ℚ

/-- Python `pattern in s` on strings. -/
def strContainsSub (s pat : List Char) : Bool :=
  (List.range (s.length + 1)).any
    (fun i => decide ((s.drop i).take pat.length = pat))

/-- The app-name cleanup (`analyzer.py` lines 146-154): pattern checks run
on `app.lower().replace(" ", "_")`; when no pattern matches, the original
value is kept unchanged. -/
def appCleanup (s : String) : String :=
  let app := (pyLower s).map (fun c => if c = ' ' then '_' else c)
  if strContainsSub app "visual".toList ∧ strContainsSub app "studio".toList
  then "visual_studio"
  else if strContainsSub app "vs".toList ∧ strContainsSub app "code".toList
  then "vscode"
  else if strContainsSub app "command".toList ∨ strContainsSub app "cmd".toList
  then "command_prompt"
  else if strContainsSub app "power".toList ∧ strContainsSub app "shell".toList
  then "powershell"
  else s

/-- `analyzer.py` lines 132-156 given the dict produced by `json.loads`:
build the analysis with unvalidated `.get` defaults, then clean up the
app name.  `none` models the uncaught `AttributeError` that
`analysis["app"].lower()` raises when the `app` value is not a string
(only `json.JSONDecodeError` is caught in this function). -/
def parse_gemini_json (data : List (String × JVal)) (elapsed : ℚ) :
    Option GAnalysis :=
  let analysis : GAnalysis :=
    { app := (assoc data "app").getD (.jstr "unknown")
      activity := (assoc data "activity").getD (.jstr "unknown")
      error_detected := (assoc data "error_detected").getD (.jbool false)
      suggestion := (assoc data "suggestion").getD (.jstr "No suggestion")
      confidence := (assoc data "confidence").getD (.jnum (1/2))
      mode := "gemini_json"
      analysis_time := elapsed }
  match analysis.app with
  | .jstr s => some { analysis with app := .jstr (appCleanup s) }
  | _ => none

/-! ## Bounds for the difflib model -/

theorem runLen_le (a b : List Char) (ahi bhi : Nat) :
    ∀ fuel i j, runLen a b ahi bhi fuel i j ≤ ahi - i ∧
      runLen a b ahi bhi fuel i j ≤ bhi - j := by
  intro fuel
  induction fuel with
  | zero => intro i j; simp [runLen]
  | succ n ih =>
      intro i j
      rw [runLen]
      split
      · rename_i h
        obtain ⟨h1, h2, -, -⟩ := h
        obtain ⟨ihl, ihr⟩ := ih (i + 1) (j + 1)
        omega
      · omega

theorem foldl_pickLonger_prop (P : Nat × Nat × Nat → Prop)
    (l : List (Nat × Nat × Nat)) (acc : Nat × Nat × Nat) (hacc : P acc)
    (hl : ∀ x ∈ l, P x) : P (l.foldl pickLonger acc) := by
  induction l generalizing acc with
  | nil => exact hacc
  | cons x xs ih =>
      refine ih (pickLonger acc x) ?_ ?_
      · unfold pickLonger
        split
        · exact hl x (List.mem_cons_self x xs)
        · exact hacc
      · intro y hy
        exact hl y (List.mem_cons_of_mem x hy)

theorem longestMatch_bounds (a b : List Char) (alo ahi blo bhi : Nat)
    (hA : alo ≤ ahi) (hB : blo ≤ bhi) :
    alo ≤ (longestMatch a b alo ahi blo bhi).1 ∧
      blo ≤ (longestMatch a b alo ahi blo bhi).2.1 ∧
      (longestMatch a b alo ahi blo bhi).1 +
        (longestMatch a b alo ahi blo bhi).2.2 ≤ ahi ∧
      (longestMatch a b alo ahi blo bhi).2.1 +
        (longestMatch a b alo ahi blo bhi).2.2 ≤ bhi := by
  unfold longestMatch
  refine foldl_pickLonger_prop
    (P := fun m => alo ≤ m.1 ∧ blo ≤ m.2.1 ∧ m.1 + m.2.2 ≤ ahi ∧
      m.2.1 + m.2.2 ≤ bhi) _ _ ⟨le_refl _, le_refl _, by dsimp only; omega,
        by dsimp only; omega⟩ ?_
  intro x hx
  unfold matchCandidates at hx
  rw [List.mem_flatMap] at hx
  obtain ⟨i, hi, hx⟩ := hx
  rw [List.mem_map] at hx
  obtain ⟨j, hj, rfl⟩ := hx
  rw [List.mem_range'_1] at hi hj
  obtain ⟨hrl, hrr⟩ := runLen_le a b ahi bhi (ahi - i) i j
  dsimp only
  refine ⟨by omega, by omega, by omega, by omega⟩

theorem matchTotal_le (a b : List Char) :
    ∀ fuel alo ahi blo bhi, alo ≤ ahi → blo ≤ bhi →
      matchTotal a b fuel alo ahi blo bhi ≤ ahi - alo ∧
        matchTotal a b fuel alo ahi blo bhi ≤ bhi - blo := by
  intro fuel
  induction fuel with
  | zero => intro alo ahi blo bhi _ _; simp [matchTotal]
  | succ n ih =>
      intro alo ahi blo bhi hA hB
      obtain ⟨h1, h2, h3, h4⟩ := longestMatch_bounds a b alo ahi blo bhi hA hB
      rw [matchTotal]
      split
      · omega
      · obtain ⟨ihL1, ihL2⟩ :=
          ih alo (longestMatch a b alo ahi blo bhi).1 blo
            (longestMatch a b alo ahi blo bhi).2.1 (by omega) (by omega)
        obtain ⟨ihR1, ihR2⟩ :=
          ih ((longestMatch a b alo ahi blo bhi).1 +
              (longestMatch a b alo ahi blo bhi).2.2) ahi
            ((longestMatch a b alo ahi blo bhi).2.1 +
              (longestMatch a b alo ahi blo bhi).2.2) bhi (by omega) (by omega)
        omega

theorem seqRatio_nonneg (a b : List Char) : 0 ≤ seqRatio a b := by
  unfold seqRatio
  apply div_nonneg
  · positivity
  · positivity

theorem seqRatio_le_one (a b : List Char) : seqRatio a b ≤ 1 := by
  unfold seqRatio
  rcases Nat.eq_zero_or_pos (a.length + b.length) with h | h
  · have ha : a.length = 0 := by omega
    have hb : b.length = 0 := by omega
    rw [ha, hb]
    norm_num
  · have hpos : (0 : ℚ) < (a.length : ℚ) + (b.length : ℚ) := by
      have : (0 : ℚ) < ((a.length + b.length : Nat) : ℚ) := by
        exact_mod_cast h
      push_cast at this
      linarith
    rw [div_le_one hpos]
    obtain ⟨hM1, hM2⟩ :=
      matchTotal_le a b (a.length + b.length) 0 a.length 0 b.length
        (Nat.zero_le _) (Nat.zero_le _)
    have hq : 2 * (matchTotal a b (a.length + b.length) 0 a.length 0
        b.length) ≤ a.length + b.length := by omega
    exact_mod_cast hq

/-! ## Decomposition of `calculate_similarity` into its three signals -/

/-- The app signal: what the branch at `memory.py` lines 115-119 adds. -/
def appTerm (analysis1 analysis2 : Analysis) : ℚ :=
  if analysis1.app.getD "unknown" = analysis2.app.getD "unknown" ∧
      analysis1.app.getD "unknown" ≠ "unknown"
  then 2/5 else 0

/-- The activity signal (`memory.py` lines 121-125). -/
def actTerm (analysis1 analysis2 : Analysis) : ℚ :=
  if analysis1.activity.getD "unknown" = analysis2.activity.getD "unknown" ∧
      analysis1.activity.getD "unknown" ≠ "unknown"
  then 3/10 else 0

/-- The suggestion-text signal (`memory.py` lines 127-136). -/
def suggTerm (analysis1 analysis2 : Analysis) : ℚ :=
  if analysis1.suggestion.getD "" ≠ "" ∧ analysis2.suggestion.getD "" ≠ ""
  then seqRatio (pyLower (analysis1.suggestion.getD ""))
    (pyLower (analysis2.suggestion.getD "")) * (3/10)
  else 0

theorem calculate_similarity_eq (analysis1 analysis2 : Analysis) :
    calculate_similarity analysis1 analysis2 =
      appTerm analysis1 analysis2 + actTerm analysis1 analysis2 +
        suggTerm analysis1 analysis2 := by
  simp only [calculate_similarity, appTerm, actTerm, suggTerm]
  split_ifs <;> ring

theorem appTerm_bounds (analysis1 analysis2 : Analysis) :
    0 ≤ appTerm analysis1 analysis2 ∧ appTerm analysis1 analysis2 ≤ 2/5 := by
  unfold appTerm
  split_ifs <;> norm_num

theorem actTerm_bounds (analysis1 analysis2 : Analysis) :
    0 ≤ actTerm analysis1 analysis2 ∧ actTerm analysis1 analysis2 ≤ 3/10 := by
  unfold actTerm
  split_ifs <;> norm_num

theorem suggTerm_bounds (analysis1 analysis2 : Analysis) :
    0 ≤ suggTerm analysis1 analysis2 ∧
      suggTerm analysis1 analysis2 ≤ 3/10 := by
  unfold suggTerm
  split_ifs with h
  · constructor
    · have := seqRatio_nonneg (pyLower (analysis1.suggestion.getD ""))
        (pyLower (analysis2.suggestion.getD ""))
      positivity
    · have := seqRatio_le_one (pyLower (analysis1.suggestion.getD ""))
        (pyLower (analysis2.suggestion.getD ""))
      nlinarith
  · norm_num

theorem appTerm_comm (analysis1 analysis2 : Analysis) :
    appTerm analysis1 analysis2 = appTerm analysis2 analysis1 := by
  unfold appTerm
  by_cases h : analysis1.app.getD "unknown" = analysis2.app.getD "unknown"
  · rw [h]
  · rw [if_neg (fun hc => h hc.1), if_neg (fun hc => h hc.1.symm)]

theorem actTerm_comm (analysis1 analysis2 : Analysis) :
    actTerm analysis1 analysis2 = actTerm analysis2 analysis1 := by
  unfold actTerm
  by_cases h :
      analysis1.activity.getD "unknown" = analysis2.activity.getD "unknown"
  · rw [h]
  · rw [if_neg (fun hc => h hc.1), if_neg (fun hc => h hc.1.symm)]

/-! ## The stable descending sort: sortedness, stability, length -/

/-- The sublist of entries carrying a given score; used to state
stability: a stable sort leaves each such sublist unchanged. -/
def filterScore (l : List (ℚ × Experience)) (s : ℚ) :
    List (ℚ × Experience) :=
  l.filter (fun p => decide (p.1 = s))

theorem filterScore_cons (x : ℚ × Experience) (l : List (ℚ × Experience))
    (s : ℚ) :
    filterScore (x :: l) s =
      if x.1 = s then x :: filterScore l s else filterScore l s := by
  simp only [filterScore, List.filter_cons, decide_eq_true_eq]

theorem mem_insertDesc (x y : ℚ × Experience) (l : List (ℚ × Experience))
    (h : y ∈ insertDesc x l) : y = x ∨ y ∈ l := by
  induction l with
  | nil => simpa [insertDesc] using h
  | cons z zs ih =>
      rw [insertDesc] at h
      split at h
      · rcases List.mem_cons.mp h with h1 | h2
        · exact Or.inl h1
        · exact Or.inr h2
      · rcases List.mem_cons.mp h with h1 | h2
        · exact Or.inr (h1 ▸ List.mem_cons_self z zs)
        · rcases ih h2 with h3 | h4
          · exact Or.inl h3
          · exact Or.inr (List.mem_cons_of_mem z h4)

theorem insertDesc_sorted (x : ℚ × Experience) (l : List (ℚ × Experience))
    (h : List.Pairwise (fun p q => q.1 ≤ p.1) l) :
    List.Pairwise (fun p q => q.1 ≤ p.1) (insertDesc x l) := by
  induction l with
  | nil => simp [insertDesc]
  | cons y ys ih =>
      rw [insertDesc]
      obtain ⟨hy, hys⟩ := List.pairwise_cons.mp h
      split
      · rename_i hyx
        refine List.pairwise_cons.mpr ⟨?_, h⟩
        intro z hz
        rcases List.mem_cons.mp hz with rfl | hz'
        · exact hyx
        · exact le_trans (hy z hz') hyx
      · rename_i hyx
        refine List.pairwise_cons.mpr ⟨?_, ih hys⟩
        intro z hz
        rcases mem_insertDesc x z ys hz with rfl | hz'
        · exact le_of_not_le hyx
        · exact hy z hz'

theorem filterScore_insertDesc (x : ℚ × Experience)
    (l : List (ℚ × Experience)) (s : ℚ) :
    filterScore (insertDesc x l) s =
      if x.1 = s then x :: filterScore l s else filterScore l s := by
  induction l with
  | nil => exact filterScore_cons x [] s
  | cons y ys ih =>
      rw [insertDesc]
      split
      · exact filterScore_cons x (y :: ys) s
      · rename_i hyx
        rw [filterScore_cons, ih, filterScore_cons]
        by_cases hx : x.1 = s
        · have hy : ¬ y.1 = s := fun hy => hyx (le_of_eq (hy.trans hx.symm))
          simp [hx, hy]
        · simp [hx]

theorem sortDesc_sorted (l : List (ℚ × Experience)) :
    List.Pairwise (fun p q => q.1 ≤ p.1) (sortDesc l) := by
  induction l with
  | nil => simp [sortDesc]
  | cons x xs ih => exact insertDesc_sorted x (sortDesc xs) ih

theorem sortDesc_filterScore (l : List (ℚ × Experience)) (s : ℚ) :
    filterScore (sortDesc l) s = filterScore l s := by
  induction l with
  | nil => rfl
  | cons x xs ih =>
      show filterScore (insertDesc x (sortDesc xs)) s = _
      rw [filterScore_insertDesc, ih, filterScore_cons]

theorem insertDesc_length (x : ℚ × Experience) (l : List (ℚ × Experience)) :
    (insertDesc x l).length = l.length + 1 := by
  induction l with
  | nil => rfl
  | cons y ys ih =>
      rw [insertDesc]
      split
      · rfl
      · simpa using ih

theorem sortDesc_length (l : List (ℚ × Experience)) :
    (sortDesc l).length = l.length := by
  induction l with
  | nil => rfl
  | cons x xs ih =>
      show (insertDesc x (sortDesc xs)).length = _
      rw [insertDesc_length, ih]
      rfl

theorem scoredCandidates_length_le (current : Analysis)
    (experiences : List Experience) :
    (scoredCandidates current experiences).length ≤ 50 := by
  unfold scoredCandidates
  refine le_trans (List.length_filter_le _ _) ?_
  rw [List.length_map, List.length_drop]
  omega

theorem rankedSimilarities_length_le (current : Analysis)
    (experiences : List Experience) :
    (rankedSimilarities current experiences).length ≤ 50 := by
  unfold rankedSimilarities
  rw [sortDesc_length]
  exact scoredCandidates_length_le current experiences

/-! ## Store append and event-stream lemmas -/

theorem iterSave_length (analysis : Analysis) (n : Nat) :
    (iterSave analysis n).experiences.length = n := by
  induction n with
  | zero => rfl
  | succ k ih =>
      show ((iterSave analysis k).experiences ++ [_]).length = k + 1
      rw [List.length_append, ih]
      rfl

theorem add_event_length (l : List EventRec) (e : EventRec) :
    (add_event l e).length = min (l.length + 1) 1000 := by
  have hlen : (l ++ [e]).length = l.length + 1 := by simp
  unfold add_event
  dsimp only
  split
  · rename_i h
    rw [List.length_drop, hlen]
    rw [hlen] at h
    omega
  · rename_i h
    rw [hlen]
    rw [hlen] at h
    omega

theorem foldl_add_event (es : List EventRec) :
    es.foldl add_event [] = es.drop (es.length - 1000) := by
  induction es using List.reverseRecOn with
  | nil => rfl
  | append_singleton es e ih =>
      rw [List.foldl_append, List.foldl_cons, List.foldl_nil, ih]
      unfold add_event
      dsimp only
      have hL : (es.drop (es.length - 1000) ++ [e]).length =
          (es.length - (es.length - 1000)) + 1 := by
        rw [List.length_append, List.length_drop]
        rfl
      have hL2 : (es ++ [e]).length = es.length + 1 := by simp
      rcases Nat.lt_or_ge es.length 1000 with h | h
      · rw [if_neg (by rw [hL]; omega)]
        have h0 : es.length - 1000 = 0 := by omega
        have h1 : (es ++ [e]).length - 1000 = 0 := by rw [hL2]; omega
        rw [h0, List.drop_zero, h1, List.drop_zero]
      · rw [if_pos (by rw [hL]; omega)]
        rw [hL]
        have h1 : es.length - (es.length - 1000) + 1 - 1000 = 1 := by omega
        rw [h1]
        rw [List.drop_append_of_le_length (by rw [List.length_drop]; omega)]
        rw [List.drop_drop]
        rw [hL2]
        rw [List.drop_append_of_le_length (by omega)]
        have h2 : es.length - 1000 + 1 = es.length + 1 - 1000 := by omega
        rw [h2]

/-! ## Persistence round-trip lemmas -/

theorem decodeExperience_encodeExperience (e : Experience) :
    decodeExperience (encodeExperience e) = some e := by
  obtain ⟨i, ts, sc, an, app, act, ed, sg, md⟩ := e
  cases an with
  | none => rfl
  | some a =>
      obtain ⟨o1, o2, o3, o4, o5⟩ := a
      cases o1 <;> cases o2 <;> cases o3 <;> cases o4 <;> cases o5 <;> rfl

theorem decodeExperiences_map (es : List Experience) :
    decodeExperiences (es.map encodeExperience) = some es := by
  induction es with
  | nil => rfl
  | cons e es ih =>
      rw [List.map_cons]
      simp [decodeExperiences, decodeExperience_encodeExperience, ih]

theorem load_save_memory (m : MemoryData) :
    load_memory (save_memory m) =
      some { m with experiences := m.experiences.map fixExperience } := by
  obtain ⟨v, c, lu, es, ps⟩ := m
  have h1 : decodeMemory (save_memory ⟨v, c, lu, es, ps⟩) =
      (decodeExperiences (es.map encodeExperience)).map
        (fun exps =>
          { version := v, created := c, last_updated := lu
            experiences := exps, patterns := ps }) := rfl
  unfold load_memory
  rw [h1, decodeExperiences_map]
  rfl

theorem topFields_fixExperience (e : Experience) :
    topFields (fixExperience e) = topFields e := by
  obtain ⟨i, ts, sc, an, app, act, ed, sg, md⟩ := e
  cases an <;> rfl

theorem fixExperience_of_some (e : Experience) (h : e.analysis ≠ none) :
    fixExperience e = e := by
  obtain ⟨i, ts, sc, an, app, act, ed, sg, md⟩ := e
  cases an with
  | none => exact absurd rfl h
  | some a => rfl

/-! ## Concrete instances: the spec's recall scenario and similarity
counterexamples -/

/-- An analysis dict with the given app/activity, empty suggestion. -/
def scenAnalysis (app act : String) : Analysis :=
  ⟨some app, some act, some false, some "", some "gemini_json"⟩

/-- A stored experience as `save_experience` would create it. -/
def scenExperience (i : Nat) (app act : String) : Experience :=
  { id := i, timestamp := "t", screenshot := "shot.png"
    analysis := some (scenAnalysis app act)
    app := app, activity := act, error_detected := false
    suggestion := "", mode := "gemini_json" }

/-- The store of the spec's recall scenario: two editor/coding entries
followed by one browser/browsing entry. -/
def scenMemory : MemoryData :=
  { version := "0.1.1", created := "t0", last_updated := "t"
    experiences :=
      [scenExperience 1 "editor" "coding",
       scenExperience 2 "editor" "coding",
       scenExperience 3 "browser" "browsing"]
    patterns := [] }

/-- The scenario's query observation. -/
def scenQuery : Analysis := scenAnalysis "editor" "coding"

theorem scen_score_editor (i : Nat) :
    calculate_similarity scenQuery
      (effectiveAnalysis (scenExperience i "editor" "coding")) = 7/10 := by
  rw [show effectiveAnalysis (scenExperience i "editor" "coding") =
    scenAnalysis "editor" "coding" from rfl]
  rw [calculate_similarity_eq]
  unfold appTerm actTerm suggTerm
  rw [if_pos ⟨rfl, by decide⟩, if_pos ⟨rfl, by decide⟩, if_neg (by decide)]
  norm_num

theorem scen_score_browser :
    calculate_similarity scenQuery
      (effectiveAnalysis (scenExperience 3 "browser" "browsing")) = 0 := by
  rw [show effectiveAnalysis (scenExperience 3 "browser" "browsing") =
    scenAnalysis "browser" "browsing" from rfl]
  rw [calculate_similarity_eq]
  unfold appTerm actTerm suggTerm
  rw [if_neg (by decide), if_neg (by decide), if_neg (by decide)]
  norm_num

theorem scen_candidates :
    scoredCandidates scenQuery scenMemory.experiences =
      [(7/10, scenExperience 1 "editor" "coding"),
       (7/10, scenExperience 2 "editor" "coding")] := by
  unfold scoredCandidates
  rw [show scenMemory.experiences.drop
    (scenMemory.experiences.length - 50) = scenMemory.experiences from rfl]
  rw [show scenMemory.experiences =
    [scenExperience 1 "editor" "coding", scenExperience 2 "editor" "coding",
     scenExperience 3 "browser" "browsing"] from rfl]
  rw [List.map_cons, List.map_cons, List.map_cons, List.map_nil]
  rw [scen_score_editor 1, scen_score_editor 2, scen_score_browser]
  rw [List.filter_cons, List.filter_cons, List.filter_cons, List.filter_nil]
  norm_num

theorem scen_ranked :
    rankedSimilarities scenQuery scenMemory.experiences =
      [(7/10, scenExperience 1 "editor" "coding"),
       (7/10, scenExperience 2 "editor" "coding")] := by
  unfold rankedSimilarities
  rw [scen_candidates]
  unfold sortDesc
  rw [List.foldr_cons, List.foldr_cons, List.foldr_nil]
  rw [show insertDesc (7/10, scenExperience 2 "editor" "coding") [] =
    [(7/10, scenExperience 2 "editor" "coding")] from rfl]
  rw [insertDesc]
  rw [if_pos (by norm_num)]

theorem scen_find_similar :
    find_similar scenMemory scenQuery 5 =
      [scenExperience 1 "editor" "coding",
       scenExperience 2 "editor" "coding"] := by
  have h : find_similar scenMemory scenQuery 5 =
      (pyTake 5 (rankedSimilarities scenQuery scenMemory.experiences)).map
        (fun p => p.2) := rfl
  rw [h, scen_ranked]
  rfl

theorem scen_find_similar_neg :
    find_similar scenMemory scenQuery (-1) =
      [scenExperience 1 "editor" "coding"] := by
  have h : find_similar scenMemory scenQuery (-1) =
      (pyTake (-1) (rankedSimilarities scenQuery scenMemory.experiences)).map
        (fun p => p.2) := rfl
  rw [h, scen_ranked]
  rfl

/-- First analysis of the symmetry counterexample: no categorical labels,
suggestion `"abwecd"`. -/
def asymA : Analysis := ⟨none, none, none, some "abwecd", none⟩

/-- Second analysis of the symmetry counterexample: suggestion
`"cdxyzabe"`. -/
def asymB : Analysis := ⟨none, none, none, some "cdxyzabe", none⟩

set_option maxRecDepth 8000 in
theorem asym_ratio_forward :
    seqRatio (pyLower "abwecd") (pyLower "cdxyzabe") = 3/7 := by
  unfold seqRatio
  rw [show (pyLower "abwecd").length = 6 from rfl,
    show (pyLower "cdxyzabe").length = 8 from rfl]
  rw [show matchTotal (pyLower "abwecd") (pyLower "cdxyzabe")
    (6 + 8) 0 6 0 8 = 3 from by decide]
  norm_num

set_option maxRecDepth 8000 in
theorem asym_ratio_backward :
    seqRatio (pyLower "cdxyzabe") (pyLower "abwecd") = 2/7 := by
  unfold seqRatio
  rw [show (pyLower "cdxyzabe").length = 8 from rfl,
    show (pyLower "abwecd").length = 6 from rfl]
  rw [show matchTotal (pyLower "cdxyzabe") (pyLower "abwecd")
    (8 + 6) 0 8 0 6 = 2 from by decide]
  norm_num

theorem asym_forward : calculate_similarity asymA asymB = 9/70 := by
  rw [calculate_similarity_eq]
  unfold appTerm actTerm suggTerm
  rw [if_neg (by decide), if_neg (by decide), if_pos (by decide)]
  rw [show asymA.suggestion.getD "" = "abwecd" from rfl,
    show asymB.suggestion.getD "" = "cdxyzabe" from rfl]
  rw [asym_ratio_forward]
  norm_num

theorem asym_backward : calculate_similarity asymB asymA = 6/70 := by
  rw [calculate_similarity_eq]
  unfold appTerm actTerm suggTerm
  rw [if_neg (by decide), if_neg (by decide), if_pos (by decide)]
  rw [show asymB.suggestion.getD "" = "cdxyzabe" from rfl,
    show asymA.suggestion.getD "" = "abwecd" from rfl]
  rw [asym_ratio_backward]
  norm_num

/-- App label differing only in case from `caseB`'s. -/
def caseA : Analysis := ⟨some "Editor", none, none, none, none⟩

/-- App label `"editor"`, lower-case. -/
def caseB : Analysis := ⟨some "editor", none, none, none, none⟩

theorem caseSens_zero : calculate_similarity caseA caseB = 0 := by
  rw [calculate_similarity_eq]
  unfold appTerm actTerm suggTerm
  rw [if_neg (by decide), if_neg (by decide), if_neg (by decide)]
  norm_num

/-! ## Auxiliary definitions and lemmas for the claim theorems -/

/-- Fold a list of `(screenshot, analysis, timestamp)` inputs through
`save_experience`, i.e. a store that grows only by appends. -/
def foldSave (inputs : List (String × Analysis × String)) (m : MemoryData) :
    MemoryData :=
  inputs.foldl (fun acc t => (save_experience acc t.1 t.2.1 t.2.2).1) m

theorem foldSave_ids (inputs : List (String × Analysis × String)) :
    ∀ m : MemoryData,
      (foldSave inputs m).experiences.map Experience.id =
        m.experiences.map Experience.id ++
          List.range' (m.experiences.length + 1) inputs.length := by
  induction inputs with
  | nil => intro m; simp [foldSave]
  | cons t ts ih =>
      intro m
      show (foldSave ts (save_experience m t.1 t.2.1 t.2.2).1).experiences.map
        Experience.id = _
      rw [ih]
      have h1 : (save_experience m t.1 t.2.1 t.2.2).1.experiences =
          m.experiences ++ [mkExperience m t.1 t.2.1 t.2.2] := rfl
      rw [h1, List.map_append, List.length_append]
      rw [show List.map Experience.id [mkExperience m t.1 t.2.1 t.2.2] =
        [m.experiences.length + 1] from rfl]
      rw [List.append_assoc]
      congr 1

/-- Two analyses with identical suggestion texts but different labels,
used to instantiate the amended symmetry claim. -/
def symC : Analysis := ⟨some "vscode", some "coding", none,
  some "fix the failing import", none⟩

/-- Companion of `symC` with the same suggestion text. -/
def symD : Analysis := ⟨some "chrome", some "browsing", none,
  some "fix the failing import", none⟩

/-- Analysis whose app label is `"unknown"`, for the app-signal claim. -/
def unkA : Analysis := ⟨some "unknown", some "coding", none, none, none⟩

/-- Analysis with a normal app label, partner of `unkA`. -/
def unkB : Analysis := ⟨some "vscode", some "coding", none, none, none⟩

/-- The parse result of a `{"confidence": 2}` response. -/
def gW : GAnalysis :=
  { app := JVal.jstr "unknown", activity := JVal.jstr "unknown"
    error_detected := JVal.jbool false
    suggestion := JVal.jstr "No suggestion", confidence := JVal.jnum 2
    mode := "gemini_json", analysis_time := 0 }

/-! ## Claim theorems -/

/-- C1, counterexample: appending 1001 observations to an empty store
leaves 1001 entries, violating the claimed invariant
`len(store) <= N_max` with `N_max = 1000`. -/
theorem C1_counterexample :
    (iterSave (scenAnalysis "editor" "coding") 1001).experiences.length =
      1001 ∧
    ¬ ((iterSave (scenAnalysis "editor" "coding") 1001).experiences.length ≤
      1000) := by
  constructor
  · exact iterSave_length _ 1001
  · rw [iterSave_length]
    decide

/-- C1 (amended): `save_experience` performs no eviction at all: every
append grows the store by exactly one entry and leaves all previously
stored observations in place, so the store is unbounded; the 1000-entry
FIFO retention promised by the spec exists only in the `EventStream`. -/
theorem C1_no_eviction :
    ∀ (mem : MemoryData) (sp : String) (a : Analysis) (now : String),
      ((save_experience mem sp a now).1).experiences.length =
        mem.experiences.length + 1 ∧
      ((save_experience mem sp a now).1).experiences.take
        mem.experiences.length = mem.experiences := by
  intro mem sp a now
  constructor
  · show (mem.experiences ++ [_]).length = _
    rw [List.length_append]
    rfl
  · show (mem.experiences ++ [_]).take mem.experiences.length = _
    exact List.take_left mem.experiences _

/-- C2, counterexample: on the spec's own scenario the two tied
editor/coding entries come back in store order — the FIRST (older) one
first — because Python's stable sort with `reverse=True` keeps ties in
their original order; the claimed `[second, first]` order is wrong. -/
theorem C2_counterexample :
    find_similar scenMemory scenQuery 5 ≠
      [scenExperience 2 "editor" "coding",
       scenExperience 1 "editor" "coding"] ∧
    find_similar scenMemory scenQuery 5 =
      [scenExperience 1 "editor" "coding",
       scenExperience 2 "editor" "coding"] := by
  refine ⟨?_, scen_find_similar⟩
  rw [scen_find_similar]
  decide

/-- C2 (amended): `find_similar` sorts the retained candidates descending
by score, and among candidates with equal scores the EARLIER one (the one
appended first) appears first (the sort is stable, so each equal-score
class keeps the window order); in the spec's scenario the first
editor/coding entry is returned before the second. -/
theorem C2_sorted_ties_in_store_order :
    ∀ (current : Analysis) (experiences : List Experience),
      List.Pairwise (fun p q => q.1 ≤ p.1)
        (rankedSimilarities current experiences) ∧
      (∀ s : ℚ, filterScore (rankedSimilarities current experiences) s =
        filterScore (scoredCandidates current experiences) s) ∧
      find_similar scenMemory scenQuery 5 =
        [scenExperience 1 "editor" "coding",
         scenExperience 2 "editor" "coding"] := by
  intro current experiences
  exact ⟨sortDesc_sorted _, fun s => sortDesc_filterScore _ s,
    scen_find_similar⟩

/-- C3, counterexample: the similarity score is NOT symmetric:
`difflib.SequenceMatcher.ratio` depends on the argument order (the greedy
longest-block decomposition of `("abwecd", "cdxyzabe")` matches 3
characters, the swapped order only 2), so the suggestion signal — and
with it the score — differs between `score(a,b)` and `score(b,a)`. -/
theorem C3_counterexample :
    calculate_similarity asymA asymB ≠ calculate_similarity asymB asymA := by
  rw [asym_forward, asym_backward]
  norm_num

/-- C3 (amended): the score is symmetric whenever the two suggestion
texts are equal or either is empty (the categorical signals are always
symmetric); full symmetry fails in general because the sequence-ratio
measure is not symmetric. -/
theorem C3_symm_when_suggestions_agree :
    ∀ a1 a2 : Analysis,
      (a1.suggestion.getD "" = a2.suggestion.getD "" ∨
        a1.suggestion.getD "" = "" ∨ a2.suggestion.getD "" = "") →
      calculate_similarity a1 a2 = calculate_similarity a2 a1 := by
  intro a1 a2 h
  rw [calculate_similarity_eq, calculate_similarity_eq, appTerm_comm,
    actTerm_comm]
  congr 1
  unfold suggTerm
  rcases h with h | h | h
  · rw [h]
  · rw [h]
    rw [if_neg (fun hc => hc.1 rfl), if_neg (fun hc => hc.2 rfl)]
  · rw [h]
    rw [if_neg (fun hc => hc.2 rfl), if_neg (fun hc => hc.1 rfl)]

/-- C3, witness: two analyses with different labels but identical
suggestion texts score symmetrically. -/
theorem C3_witness :
    (symC.suggestion.getD "" = symD.suggestion.getD "" ∨
      symC.suggestion.getD "" = "" ∨ symD.suggestion.getD "" = "") ∧
    calculate_similarity symC symD = calculate_similarity symD symC :=
  ⟨Or.inl rfl, C3_symm_when_suggestions_agree symC symD (Or.inl rfl)⟩

/-- C4, counterexample: two app labels equal under case-insensitive
comparison (`"Editor"`/`"editor"`), neither `"unknown"`, contribute
NOTHING: the code compares case-sensitively, so the whole score is 0
instead of containing the claimed 0.4. -/
theorem C4_counterexample :
    pyLower "Editor" = pyLower "editor" ∧ "Editor" ≠ "unknown" ∧
    "editor" ≠ "unknown" ∧ caseA.app.getD "unknown" = "Editor" ∧
    caseB.app.getD "unknown" = "editor" ∧
    calculate_similarity caseA caseB = 0 :=
  ⟨by decide, by decide, by decide, rfl, rfl, caseSens_zero⟩

/-- C4 (amended): the app signal contributes exactly 0.4 precisely when
the two app labels are equal as strings (case-SENSITIVE) and that shared
label is not `"unknown"`; if either label is `"unknown"` it contributes
nothing. -/
theorem C4_app_signal_case_sensitive :
    ∀ a1 a2 : Analysis,
      calculate_similarity a1 a2 =
        appTerm a1 a2 + actTerm a1 a2 + suggTerm a1 a2 ∧
      (appTerm a1 a2 = 2/5 ↔
        a1.app.getD "unknown" = a2.app.getD "unknown" ∧
          a1.app.getD "unknown" ≠ "unknown") ∧
      ((a1.app.getD "unknown" = "unknown" ∨
          a2.app.getD "unknown" = "unknown") → appTerm a1 a2 = 0) := by
  intro a1 a2
  refine ⟨calculate_similarity_eq a1 a2, ?_, ?_⟩
  · unfold appTerm
    split_ifs with h
    · exact ⟨fun _ => h, fun _ => rfl⟩
    · constructor
      · intro h25
        norm_num at h25
      · intro hc
        exact absurd hc h
  · intro h
    unfold appTerm
    rw [if_neg]
    rintro ⟨heq, hne⟩
    rcases h with h | h
    · exact hne h
    · exact hne (heq.trans h)

/-- C4, witness: with an `"unknown"` app label on one side the app signal
contributes nothing. -/
theorem C4_witness :
    (unkA.app.getD "unknown" = "unknown" ∨
      unkB.app.getD "unknown" = "unknown") ∧ appTerm unkA unkB = 0 :=
  ⟨Or.inl rfl,
    (C4_app_signal_case_sensitive unkA unkB).2.2 (Or.inl rfl)⟩

/-- C5, counterexample: the parser keeps an out-of-range confidence `1.7`
and a wrong-typed confidence `"high"` unchanged, and defaults a missing
confidence to `0.5` — not to the claimed safe default `0.0`, and with no
clamping into `[0, 1]`. -/
theorem C5_counterexample :
    (parse_gemini_json [("confidence", JVal.jnum (17/10))] 0).map
        GAnalysis.confidence = some (JVal.jnum (17/10)) ∧
    ¬ ((17 : ℚ)/10 ≤ 1) ∧
    (parse_gemini_json [("confidence", JVal.jstr "high")] 0).map
        GAnalysis.confidence = some (JVal.jstr "high") ∧
    (parse_gemini_json [] 0).map GAnalysis.confidence =
      some (JVal.jnum (1/2)) :=
  ⟨rfl, by norm_num, rfl, rfl⟩

/-- C5 (amended): whenever the gemini-JSON mapping returns an analysis,
its confidence field is the raw value of the `"confidence"` key copied
through without any type or range validation, and `0.5` (not `0.0`) when
the key is absent. -/
theorem C5_confidence_passthrough :
    ∀ (data : List (String × JVal)) (elapsed : ℚ) (g : GAnalysis),
      parse_gemini_json data elapsed = some g →
      g.confidence = (assoc data "confidence").getD (JVal.jnum (1/2)) := by
  intro data elapsed g h
  unfold parse_gemini_json at h
  dsimp only at h
  split at h
  · injection h with h2
    rw [← h2]
  · exact Option.noConfusion h

/-- C5, witness: a confidence of `2` (out of the claimed range) is passed
through unchanged. -/
theorem C5_witness :
    parse_gemini_json [("confidence", JVal.jnum 2)] 0 = some gW ∧
    gW.confidence =
      (assoc [("confidence", JVal.jnum 2)] "confidence").getD
        (JVal.jnum (1/2)) :=
  ⟨rfl, C5_confidence_passthrough _ _ _ rfl⟩

/-- C6, counterexample: calling `find_similar` with the negative limit
`-1` does not fail: it returns normally (here a nonempty result), the
Python slice `similarities[:-1]` simply dropping the lowest-ranked
candidate. -/
theorem C6_counterexample :
    find_similar scenMemory scenQuery (-1) =
      [scenExperience 1 "editor" "coding"] ∧
    find_similar scenMemory scenQuery (-1) ≠ [] := by
  refine ⟨scen_find_similar_neg, ?_⟩
  rw [scen_find_similar_neg]
  decide

/-- C6 (amended): a negative `limit` is not an error: `find_similar`
returns the ranked result with the last `|limit|` entries removed
(Python slice semantics) — a prefix of the full ranked result of length
`full - |limit|` (truncated at 0). -/
theorem C6_negative_limit_truncates :
    ∀ (mem : MemoryData) (current : Analysis) (k : Int), k < 0 →
      find_similar mem current k =
        (find_similar mem current 50).take
          ((find_similar mem current 50).length - (-k).toNat) ∧
      (find_similar mem current k).length =
        (find_similar mem current 50).length - (-k).toNat := by
  intro mem current k hk
  by_cases h : mem.experiences = []
  · have h1 : find_similar mem current k = [] := by
      unfold find_similar
      dsimp only
      rw [if_pos h]
    have h2 : find_similar mem current 50 = [] := by
      unfold find_similar
      dsimp only
      rw [if_pos h]
    rw [h1, h2]
    constructor
    · rw [List.take_nil]
    · simp
  · have h1 : find_similar mem current k =
        (pyTake k (rankedSimilarities current mem.experiences)).map
          (fun p => p.2) := by
      unfold find_similar
      dsimp only
      rw [if_neg h]
    have h2 : find_similar mem current 50 =
        (pyTake 50 (rankedSimilarities current mem.experiences)).map
          (fun p => p.2) := by
      unfold find_similar
      dsimp only
      rw [if_neg h]
    have hRlen : (rankedSimilarities current mem.experiences).length ≤ 50 :=
      rankedSimilarities_length_le current mem.experiences
    have h50 : pyTake 50 (rankedSimilarities current mem.experiences) =
        rankedSimilarities current mem.experiences := by
      unfold pyTake
      rw [if_pos (by norm_num)]
      rw [show ((50 : Int)).toNat = 50 from rfl]
      exact List.take_of_length_le hRlen
    have hkneg : ¬ (0 : Int) ≤ k := by omega
    have hTake : pyTake k (rankedSimilarities current mem.experiences) =
        (rankedSimilarities current mem.experiences).take
          (((rankedSimilarities current mem.experiences).length : Int) +
            k).toNat := by
      unfold pyTake
      rw [if_neg hkneg]
    rw [h1, h2, h50, hTake]
    have hidx : (((rankedSimilarities current mem.experiences).length : Int)
        + k).toNat =
        (rankedSimilarities current mem.experiences).length - (-k).toNat :=
      by omega
    rw [hidx]
    constructor
    · rw [List.map_take, List.length_map]
    · rw [List.length_map, List.length_take, List.length_map]
      omega

/-- C6, witness: the amended behaviour at the scenario store with
`limit = -1`. -/
theorem C6_witness :
    ((-1 : Int) < 0) ∧
    (find_similar scenMemory scenQuery (-1) =
      (find_similar scenMemory scenQuery 50).take
        ((find_similar scenMemory scenQuery 50).length - (-(-1) : Int).toNat)
      ∧
    (find_similar scenMemory scenQuery (-1)).length =
      (find_similar scenMemory scenQuery 50).length - (-(-1) : Int).toNat) :=
  ⟨by decide, C6_negative_limit_truncates scenMemory scenQuery (-1)
    (by decide)⟩

/-- C7: flushing the store and loading the flushed document into a fresh
instance reproduces the observation sequence: the load succeeds, the
sequence has the same ids and the same top-level field values in the same
order, and on any store whose experiences all carry their `analysis` key
(as every store written by `save_experience` does) the round-trip is the
identity. -/
theorem C7_flush_load_roundtrip :
    ∀ m : MemoryData,
      load_memory (save_memory m) =
        some { m with experiences := m.experiences.map fixExperience } ∧
      (m.experiences.map fixExperience).map topFields =
        m.experiences.map topFields ∧
      ((∀ e ∈ m.experiences, e.analysis ≠ none) →
        load_memory (save_memory m) = some m) := by
  intro m
  refine ⟨load_save_memory m, ?_, ?_⟩
  · rw [List.map_map]
    apply List.map_congr_left
    intro e _
    exact topFields_fixExperience e
  · intro h
    rw [load_save_memory m]
    have hmap : m.experiences.map fixExperience = m.experiences := by
      conv_rhs => rw [← List.map_id m.experiences]
      apply List.map_congr_left
      intro e he
      exact fixExperience_of_some e (h e he)
    rw [hmap]

/-- C7, witness: the round-trip is the identity on the concrete scenario
store. -/
theorem C7_witness :
    (∀ e ∈ scenMemory.experiences, e.analysis ≠ none) ∧
    load_memory (save_memory scenMemory) = some scenMemory :=
  ⟨by decide, (C7_flush_load_roundtrip scenMemory).2.2 (by decide)⟩

/-- C8: the similarity score always lies in `[0, 1]`: each signal is in
`[0, 1]` before weighting and the weighted sum (0.4 + 0.3 + 0.3) never
exceeds 1 (in the exact rational model of the Python float
arithmetic). -/
theorem C8_score_in_unit_interval :
    ∀ a1 a2 : Analysis, 0 ≤ calculate_similarity a1 a2 ∧
      calculate_similarity a1 a2 ≤ 1 := by
  intro a1 a2
  rw [calculate_similarity_eq]
  obtain ⟨h1, h2⟩ := appTerm_bounds a1 a2
  obtain ⟨h3, h4⟩ := actTerm_bounds a1 a2
  obtain ⟨h5, h6⟩ := suggTerm_bounds a1 a2
  constructor <;> linarith

/-- C9: after any `add_event` the in-memory event list holds at most 1000
events — exactly `min (previous + 1) 1000` — and a stream built by
appending events to an empty list always holds precisely the most recent
1000 events in insertion order. -/
theorem C9_event_stream_bounded :
    (∀ (l : List EventRec) (e : EventRec),
      (add_event l e).length = min (l.length + 1) 1000) ∧
    (∀ (l : List EventRec) (e : EventRec), (add_event l e).length ≤ 1000) ∧
    (∀ es : List EventRec,
      es.foldl add_event [] = es.drop (es.length - 1000)) := by
  refine ⟨add_event_length, fun l e => ?_, foldl_add_event⟩
  rw [add_event_length]
  omega

/-- C10: `save_experience` returns `len(experiences) + 1` as the new id,
which equals the store length after the append; consequently a store that
grows only by appends from empty carries the consecutive ids
`1, 2, ..., n`. -/
theorem C10_ids_are_length_based :
    (∀ (mem : MemoryData) (sp : String) (a : Analysis) (now : String),
      (save_experience mem sp a now).2 = mem.experiences.length + 1 ∧
      ((save_experience mem sp a now).1).experiences.length =
        mem.experiences.length + 1) ∧
    (∀ inputs : List (String × Analysis × String),
      (foldSave inputs (emptyMemory "t0")).experiences.map Experience.id =
        List.range' 1 inputs.length) := by
  constructor
  · intro mem sp a now
    constructor
    · rfl
    · show (mem.experiences ++ [_]).length = _
      rw [List.length_append]
      rfl
  · intro inputs
    rw [foldSave_ids inputs (emptyMemory "t0")]
    simp [emptyMemory]

end CMVision
